import Mathlib

/-!
Verification of the certificate-issuance core of utilitywarehouse/certify.

The synchronous (Vault) issuer is embedded from src/issuers/vault/vault.go.
External collaborators (the Vault HTTP client library, the Go standard
library function tls.X509KeyPair, the CSR builder) are modelled by their
documented contracts; their outcomes are explicit inputs to the embedded
functions, so the control flow of the repository code is what is verified.

PEM text is modelled structurally: a byte buffer holding a sequence of PEM
blocks is represented as the list of blocks it contains, and appending one
encoded certificate (plus a newline separator) to the buffer is represented
as appending one element to the list. The DER payload of a CERTIFICATE
block is represented by DERBlock, which is either a parseable certificate
or unparseable bytes, because tls.X509KeyPair collects CERTIFICATE blocks
without parsing any but the first.
-/

set_option linter.unusedVariables false

namespace Certify

/-- A parsed X509 certificate, reduced to the fields the claims need:
the public key it certifies and a serial number distinguishing it. -/
structure CertData where
  pub : Nat
  serial : Nat
deriving DecidableEq, Repr

/-- A parsed private key, reduced to the public key it pairs with. -/
structure KeyData where
  pub : Nat
deriving DecidableEq, Repr

/-- The DER payload of a CERTIFICATE PEM block: either bytes that parse to
a certificate, or bytes that do not. -/
inductive DERBlock where
  | valid (c : CertData)
  | invalid
deriving DecidableEq, Repr

/-- One PEM block: a CERTIFICATE block, a private-key block, or a block of
another type (skipped by the Go TLS loader). -/
inductive PEMObj where
  | cert (d : DERBlock)
  | key (k : KeyData)
  | garbage
deriving DecidableEq, Repr

/-- Go error values, abstracted to their message. -/
abbrev GoErr := String

/-- Model of x509.ParseCertificate applied to DER bytes. -/
def parseCertificateDER : DERBlock → Option CertData
  | .valid c => some c
  | .invalid => none

/-- Model of Go tls.Certificate: the DER chain, the private key, and the
optional parsed leaf (nil unless explicitly set by the caller). -/
structure TLSCertificate where
  certificate : List DERBlock
  privateKey : KeyData
  leaf : Option CertData
deriving DecidableEq, Repr

/-- The CERTIFICATE blocks of a PEM buffer, in order: tls.X509KeyPair
collects exactly these (other block types are skipped). -/
def certBlocks : List PEMObj → List DERBlock :=
  List.filterMap fun b => match b with
    | .cert d => some d
    | _ => none

/-- Model of the Go standard library function tls.X509KeyPair, per its
documented contract and implementation: collect the CERTIFICATE blocks of
the chain buffer without parsing them, fail when there are none, parse the
first block as the leaf, require the private key block to parse and its
public key to match the leaf public key, and return the pair with the Leaf
field left nil. -/
def X509KeyPair (chainPEM : List PEMObj) (keyPEM : PEMObj) : Except GoErr TLSCertificate :=
  match certBlocks chainPEM with
  | [] => .error "tls failed to find any PEM data in certificate input"
  | leafDER :: rest =>
    match parseCertificateDER leafDER with
    | none => .error "tls failed to parse leaf certificate"
    | some leafCert =>
      match keyPEM with
      | .key k =>
        if k.pub = leafCert.pub then
          .ok { certificate := leafDER :: rest, privateKey := k, leaf := none }
        else
          .error "tls private key does not match public key"
      | _ => .error "tls failed to find PEM block with private key"

/-- Configuration of the TLS client connection, abstracted. -/
structure TLSConf where
  confId : Nat
deriving DecidableEq, Repr

/-- Model of the Vault api.Client session: address, token and TLS config,
as set by connect in vault.go. -/
structure Client where
  address : String
  token : String
  tlsClientConfig : Option TLSConf
deriving DecidableEq, Repr

/-- The Issuer struct of src/issuers/vault/vault.go, fields in source
order. The unexported cli field is the lazily established session. -/
structure Issuer where
  URL : String
  Token : String
  Mount : String
  Role : String
  TLSConfig : Option TLSConf
  TimeToLive : Nat
  OtherSubjectAlternativeNames : List String
  cli : Option Client
deriving DecidableEq, Repr

/-- FromClient from vault.go: an issuer whose session is pre-established;
all other fields take their Go zero values. -/
def FromClient (c : Client) (role : String) : Issuer :=
  { URL := "", Token := "", Mount := "", Role := role, TLSConfig := none,
    TimeToLive := 0, OtherSubjectAlternativeNames := [], cli := some c }

/-- connect from vault.go: build a client from the configured URL, TLS
config and token and store it in cli. api.NewClient is external; its
possible failure is the explicit input newClientErr, and on failure the
assignment leaves cli nil, exactly as the Go multiple assignment does. -/
def connect (v : Issuer) (newClientErr : Option GoErr) : Issuer × Option GoErr :=
  match newClientErr with
  | some e => ({ v with cli := none }, some e)
  | none =>
    ({ v with cli := some { address := v.URL, token := v.Token,
                            tlsClientConfig := v.TLSConfig } }, none)

/-- A loosely typed value of the Vault response data map, mirroring Go
interface values: a string (carried as the PEM blocks the string decodes
to, one block per certificate value), a slice, or some other value on
which a string or slice type assertion panics. -/
inductive SecretVal where
  | str (p : PEMObj)
  | list (vs : List SecretVal)
  | other

/-- The api.Secret fields the code reads: Warnings and Data. Data is the
loosely typed response mapping, as an association list. -/
structure Secret where
  warnings : List String
  data : List (String × SecretVal)

/-- Go map lookup on the Data mapping. -/
def dataLookup : List (String × SecretVal) → String → Option SecretVal
  | [], _ => none
  | (k, val) :: rest, key => if k = key then some val else dataLookup rest key

/-- Outcome of api.ParseSecret on a response body: a parsed secret (possibly
nil), end of input, or a decode failure. -/
inductive ParseOutcome where
  | ok (s : Option Secret)
  | eof
  | fail (e : GoErr)

/-- A response body, carrying what api.ParseSecret yields on first read.
A second read of the same body yields end of input. -/
structure Body where
  parse : ParseOutcome

/-- The fields of api.Response the code reads. -/
structure Response where
  statusCode : Nat
  body : Body

/-- Outcome of the external call api.Client.RawRequestWithContext plus the
possible failure of SetJSONBody, all explicit inputs to signCSR. With the
real Vault library a 404 response always comes with a non nil err and a
nil err always comes with a non nil resp; the model leaves the pair
unconstrained and theorems add hypotheses where they need them. -/
structure SignCallOutcome where
  setJSONBodyErr : Option GoErr
  resp : Option Response
  err : Option GoErr

/-- The csrOpts signing request body of the vault package (the struct
itself is declared outside src). Modelled from the spec: the synchronous
wire contract carries csr, commonName, excludeCNFromSANs, outputFormat,
otherSANs and ttl; field names follow the Go composite literal in Issue. -/
structure csrOpts where
  CSR : String
  CommonName : String
  ExcludeCNFromSANS : Bool
  Format : String
  OtherSans : List String
  TimeToLive : Nat
deriving DecidableEq, Repr

/-- The ttl helper of the vault package (declared outside src). Modelled
from the spec: the signing request carries the validity or TTL configured
on the issuer; the encoding of the duration is modelled as the duration
value itself. -/
def ttl (d : Nat) : Nat := d

/-- The signing request Issue builds at lines 91 to 98 of vault.go. -/
def buildCsrOpts (v : Issuer) (commonName : String) (csrPEM : String) : csrOpts :=
  { CSR := csrPEM
    CommonName := commonName
    ExcludeCNFromSANS := true
    Format := "pem"
    OtherSans := v.OtherSubjectAlternativeNames
    TimeToLive := ttl v.TimeToLive }

/-- The mount segment defaulting of signCSR, lines 127 to 130 of vault.go:
start from pki and override when Mount is set. -/
def pkiMountName (v : Issuer) : String :=
  if v.Mount ≠ "" then v.Mount else "pki"

/-- The outbound request signCSR builds: method, path and JSON body. -/
structure VaultRequest where
  method : String
  path : String
  body : csrOpts

/-- What signCSR returns: the Go pair of optional secret and optional
error, or a runtime panic. -/
inductive SignResult where
  | ret (s : Option Secret) (e : Option GoErr)
  | goPanic (msg : String)

/-- The nil check of the secret content at line 150 of vault.go. -/
def secretHasContent : Option Secret → Bool
  | some s => !s.warnings.isEmpty || !s.data.isEmpty
  | none => false

/-- The code following the 404 block of signCSR, lines 154 to 158: return
the original error when set, otherwise parse the body. consumed records
whether the 404 block already read the body stream. Dereferencing a nil
response at the final parse is a runtime panic. -/
def signCSRTail (o : SignCallOutcome) (consumed : Bool) : SignResult :=
  match o.err with
  | some e => .ret none (some e)
  | none =>
    match o.resp with
    | none => .goPanic "runtime nil pointer dereference on response"
    | some r =>
      match (if consumed then ParseOutcome.eof else r.body.parse) with
      | .ok s => .ret s none
      | .eof => .ret none (some "EOF")
      | .fail e => .ret none (some e)

/-- signCSR from vault.go, lines 126 to 159. The request record is what
NewRequest and SetJSONBody build; the response and error of the raw
request are the explicit outcome o. The 404 branch mirrors lines 141 to
153: empty body means return nil and nil, a parse failure returns the
original error, a parsed secret with warnings or data is returned together
with the original error, and every other case falls through to the tail. -/
def signCSR (v : Issuer) (opts : csrOpts) (o : SignCallOutcome) : VaultRequest × SignResult :=
  let req : VaultRequest :=
    { method := "PUT", path := "/v1/" ++ pkiMountName v ++ "/sign/" ++ v.Role, body := opts }
  match o.setJSONBodyErr with
  | some e => (req, .ret none (some e))
  | none =>
    (req,
      match o.resp with
      | some r =>
        if r.statusCode = 404 then
          match r.body.parse with
          | .eof => .ret none none
          | .fail _ => .ret none o.err
          | .ok s =>
            if secretHasContent s then .ret s o.err
            else signCSRTail o true
        else signCSRTail o false
      | none => signCSRTail o false)

/-- Outcome of the CSR builder csr.FromCertConfig (an external collaborator
per the spec): the encoded CSR and the private key PEM, or a failure. -/
inductive CSROutcome where
  | ok (csrPEM : String) (keyPEM : PEMObj)
  | fail (e : GoErr)

/-- All external-call outcomes one Issue run consumes. -/
structure IssueInputs where
  newClientErr : Option GoErr
  csrOutcome : CSROutcome
  sign : SignCallOutcome

/-- Result of one Issue call: a certificate, an error, or a runtime panic. -/
inductive IssueResult where
  | ok (t : TLSCertificate)
  | err (e : GoErr)
  | goPanic (msg : String)

/-- Result of assembling the chain buffer from the response data map,
lines 106 to 114 of vault.go: the buffer contents, or a runtime panic from
a failed type assertion. -/
inductive ChainResult where
  | ok (chain : List PEMObj)
  | goPanic (msg : String)

/-- The loop at lines 109 to 111 of vault.go: append each ca chain entry,
asserted to string, to the buffer; a non string entry panics. -/
def appendChainEntries (acc : List PEMObj) : List SecretVal → ChainResult
  | [] => .ok acc
  | .str p :: rest => appendChainEntries (acc ++ [p]) rest
  | _ :: _ => .goPanic "interface conversion of chain entry to string"

/-- The chain buffer assembly of Issue, lines 106 to 114 of vault.go: the
certificate field asserted to string seeds the buffer, then either the
ca chain entries or the issuing ca certificate are appended; a missing
certificate key or a value of the wrong dynamic type panics. -/
def caChainPEM (data : List (String × SecretVal)) : ChainResult :=
  match dataLookup data "certificate" with
  | some (.str certPEM) =>
    match dataLookup data "ca_chain" with
    | some (.list entries) => appendChainEntries [certPEM] entries
    | some _ => .goPanic "interface conversion of ca chain to slice"
    | none =>
      match dataLookup data "issuing_ca" with
      | some (.str ca) => .ok [certPEM, ca]
      | some _ => .goPanic "interface conversion of issuing ca to string"
      | none => .ok [certPEM]
  | some _ => .goPanic "interface conversion of certificate to string"
  | none => .goPanic "interface conversion of missing certificate value"

/-- Lines 106 to 123 of vault.go applied to a non nil secret: assemble the
chain buffer, call tls.X509KeyPair on it with the key, and on success set
the Leaf field to the parse of the first chain entry, discarding the parse
error exactly as the source does. -/
def assembleResult (secret : Secret) (keyPEM : PEMObj) : IssueResult :=
  match caChainPEM secret.data with
  | .goPanic m => .goPanic m
  | .ok chain =>
    match X509KeyPair chain keyPEM with
    | .error e => .err e
    | .ok tlsCert =>
      .ok { tlsCert with leaf := tlsCert.certificate.head?.bind parseCertificateDER }

/-- Lines 100 to 123 of vault.go after signCSR returns: a non nil error is
returned as is; otherwise the secret is dereferenced, which panics when the
secret is nil (the 404 empty body outcome), and assembly proceeds. -/
def afterSign (s : Option Secret) (e : Option GoErr) (keyPEM : PEMObj) : IssueResult :=
  match e with
  | some e2 => .err e2
  | none =>
    match s with
    | none => .goPanic "runtime error invalid memory address or nil pointer dereference"
    | some secret => assembleResult secret keyPEM

/-- Observable output of one Issue call: the issuer state after the call,
the result, the outbound signing request when one was built, and the
secret the assembly step consumed when it got that far. -/
structure IssueOutput where
  issuer : Issuer
  result : IssueResult
  request : Option VaultRequest
  secretUsed : Option Secret

/-- Lines 79 to 84 of vault.go: establish the session only when cli is
nil, so a pre-established session is never replaced. -/
def prologue (v : Issuer) (newClientErr : Option GoErr) : Issuer × Option GoErr :=
  match v.cli with
  | none => connect v newClientErr
  | some _ => (v, none)

/-- Issue from vault.go, lines 78 to 124: connect when cli is nil, build
the CSR and key, build the signing request, call signCSR, and assemble the
certificate from the response. -/
def Issue (v : Issuer) (commonName : String) (inp : IssueInputs) : IssueOutput :=
  match prologue v inp.newClientErr with
  | (v1, some e) => { issuer := v1, result := .err e, request := none, secretUsed := none }
  | (v1, none) =>
    match inp.csrOutcome with
    | .fail e => { issuer := v1, result := .err e, request := none, secretUsed := none }
    | .ok csrPEM keyPEM =>
      let rs := signCSR v1 (buildCsrOpts v1 commonName csrPEM) inp.sign
      match rs.2 with
      | .goPanic m =>
        { issuer := v1, result := .goPanic m, request := some rs.1, secretUsed := none }
      | .ret s e =>
        { issuer := v1, result := afterSign s e keyPEM, request := some rs.1,
          secretUsed := match e with | none => s | some _ => none }

/-- Whether the private key of an assembled certificate pairs with the
public key of the leaf, the first entry of its chain. -/
def keyMatchesLeaf (t : TLSCertificate) : Bool :=
  match t.certificate.head? with
  | some (.valid c) => t.privateKey.pub == c.pub
  | _ => false

/-- Modelled from the spec: the asynchronous (AWS ACM PCA) issuer struct of
package issuers/aws, whose implementation is not under src; fields follow
the spec and the construction in aws_test.go. -/
structure AWSIssuer where
  CertificateAuthorityARN : String
  TimeToLive : Nat

/-- Modelled from the spec: terminal outcomes of the wait until issued
step of the asynchronous issuer. -/
inductive WaitOutcome where
  | issued
  | denied
  | cancelled

/-- Modelled from the spec: all external-call outcomes one asynchronous
Issue run consumes. submit yields the opaque certificate handle; fetch
yields the leaf certificate and the explicitly provided chain. -/
structure AWSInputs where
  csrOutcome : CSROutcome
  submit : Except GoErr String
  wait : WaitOutcome
  fetch : Except GoErr (PEMObj × List PEMObj)

/-- Modelled from the spec: Issue of the asynchronous issuer (package
issuers/aws, not under src), per section 4.2 of the spec and aws_test.go.
Build CSR and key, submit for a handle, wait until issued (cancellation
yields a timeout error and denial a distinct denied error, with no fetch),
fetch leaf and chain, and assemble leaf first exactly as the shared
assembler does, setting the Leaf field from the first chain entry. -/
def awsIssue (a : AWSIssuer) (commonName : String) (inp : AWSInputs) : IssueResult :=
  match inp.csrOutcome with
  | .fail e => .err e
  | .ok csrPEM keyPEM =>
    match inp.submit with
    | .error e => .err e
    | .ok handle =>
      match inp.wait with
      | .cancelled => .err "context deadline exceeded waiting for certificate issuance"
      | .denied => .err "certificate issuance denied"
      | .issued =>
        match inp.fetch with
        | .error e => .err e
        | .ok (leafPEM, chainPEMs) =>
          match X509KeyPair (leafPEM :: chainPEMs) keyPEM with
          | .error e => .err e
          | .ok tlsCert =>
            .ok { tlsCert with leaf := tlsCert.certificate.head?.bind parseCertificateDER }

/-- Program counter of one thread running the session establishment
prologue of Issue, lines 79 to 84 of vault.go: about to evaluate the nil
check, past the nil check and about to run connect, or past the prologue. -/
inductive TPC where
  | checking
  | connecting
  | finished
deriving DecidableEq, Repr

/-- Shared state of two threads concurrently entering Issue on one issuer:
the shared cli field, both program counters, and how many times connect
has run. -/
structure RaceState where
  cli : Option Client
  pc1 : TPC
  pc2 : TPC
  inits : Nat
deriving Repr

/-- One step of one thread in the prologue: the nil check reads cli and
either proceeds to connect or skips it; connect writes cli and counts as
one session establishment. There is no lock or once guard in the source,
so steps interleave freely. -/
def stepThread (cli : Option Client) (pc : TPC) (c : Client) : Option Client × TPC × Nat :=
  match pc with
  | .checking =>
    match cli with
    | none => (cli, .connecting, 0)
    | some _ => (cli, .finished, 0)
  | .connecting => (some c, .finished, 1)
  | .finished => (cli, .finished, 0)

/-- Apply one step of the chosen thread to the shared state. -/
def stepRace (s : RaceState) (c : Client) (tid : Bool) : RaceState :=
  if tid then
    let r := stepThread s.cli s.pc1 c
    { s with cli := r.1, pc1 := r.2.1, inits := s.inits + r.2.2 }
  else
    let r := stepThread s.cli s.pc2 c
    { s with cli := r.1, pc2 := r.2.1, inits := s.inits + r.2.2 }

/-- Run a schedule, a list of thread choices, from a state. -/
def runRace (s : RaceState) (c : Client) : List Bool → RaceState
  | [] => s
  | t :: ts => runRace (stepRace s c t) c ts

/-- Initial state of two concurrent first Issue calls. -/
def raceStart (cli : Option Client) : RaceState :=
  { cli := cli, pc1 := .checking, pc2 := .checking, inits := 0 }

/-- A sample certificate. -/
def certA : CertData := { pub := 1, serial := 10 }

/-- A second sample certificate with a different key. -/
def certB : CertData := { pub := 2, serial := 20 }

/-- A sample key pairing with certA. -/
def keyA : KeyData := { pub := 1 }

/-- A sample key pairing with certB but not certA. -/
def keyB : KeyData := { pub := 2 }

/-- A sample established session. -/
def clientA : Client := { address := "https vault local", token := "tok", tlsClientConfig := none }

/-- A sample issuer with an established session. -/
def vaultEx : Issuer :=
  { URL := "https vault local", Token := "tok", Mount := "", Role := "myrole",
    TLSConfig := none, TimeToLive := 3600,
    OtherSubjectAlternativeNames := ["oid one"], cli := some clientA }

/-- A sample asynchronous issuer. -/
def awsEx : AWSIssuer := { CertificateAuthorityARN := "someARN", TimeToLive := 25 }

/-- A successful sign call outcome carrying a parsed secret. -/
def mkOkSign (ws : List String) (data : List (String × SecretVal)) : SignCallOutcome :=
  { setJSONBodyErr := none
    resp := some { statusCode := 200, body := { parse := .ok (some { warnings := ws, data := data }) } }
    err := none }

/-- A 404 sign call outcome with the given body parse and raw error. -/
def sign404 (po : ParseOutcome) (e : Option GoErr) : SignCallOutcome :=
  { setJSONBodyErr := none
    resp := some { statusCode := 404, body := { parse := po } }
    err := e }

/-- Issue inputs with a successful connection and CSR build. -/
def mkVaultInputs (csrS : String) (keyPEM : PEMObj) (o : SignCallOutcome) : IssueInputs :=
  { newClientErr := none, csrOutcome := .ok csrS keyPEM, sign := o }

/-- A certificate entry of the response data map. -/
def certEntry (d : DERBlock) : String × SecretVal := ("certificate", .str (.cert d))

/-- A ca chain entry of the response data map holding certificate strings. -/
def caChainEntry (ds : List DERBlock) : String × SecretVal :=
  ("ca_chain", .list (ds.map fun d => SecretVal.str (PEMObj.cert d)))

theorem appendChainEntries_ok_extends {l : List SecretVal} :
    ∀ {acc chain : List PEMObj}, appendChainEntries acc l = .ok chain →
      ∃ suffix, chain = acc ++ suffix := by
  induction l with
  | nil =>
    intro acc chain h
    simp only [appendChainEntries] at h
    cases h
    exact ⟨[], by simp⟩
  | cons v rest ih =>
    intro acc chain h
    cases v with
    | str p =>
      simp only [appendChainEntries] at h
      rcases ih h with ⟨suffix, hs⟩
      exact ⟨p :: suffix, by simp [hs]⟩
    | list vs =>
      simp only [appendChainEntries] at h
      exact ChainResult.noConfusion h
    | other =>
      simp only [appendChainEntries] at h
      exact ChainResult.noConfusion h

theorem appendChainEntries_map_str (ps : List PEMObj) :
    ∀ acc, appendChainEntries acc (ps.map SecretVal.str) = .ok (acc ++ ps) := by
  induction ps with
  | nil => intro acc; simp [appendChainEntries]
  | cons p rest ih =>
    intro acc
    simp only [List.map_cons, appendChainEntries, ih]
    simp

theorem certBlocks_cons_cert (d : DERBlock) (l : List PEMObj) :
    certBlocks (PEMObj.cert d :: l) = d :: certBlocks l := by
  simp [certBlocks, List.filterMap_cons]

theorem certBlocks_map_cert (ds : List DERBlock) :
    certBlocks (ds.map PEMObj.cert) = ds := by
  induction ds with
  | nil => simp [certBlocks]
  | cons d rest ih => simp [List.map_cons, certBlocks_cons_cert, ih]

theorem X509KeyPair_ok_inv {chainPEM : List PEMObj} {keyPEM : PEMObj} {t : TLSCertificate}
    (h : X509KeyPair chainPEM keyPEM = .ok t) :
    ∃ c rest k, certBlocks chainPEM = DERBlock.valid c :: rest ∧ keyPEM = PEMObj.key k ∧
      k.pub = c.pub ∧
      t = { certificate := DERBlock.valid c :: rest, privateKey := k, leaf := none } := by
  unfold X509KeyPair at h
  split at h
  · exact absurd h (by simp)
  · rename_i leafDER rest hchain
    split at h
    · exact absurd h (by simp)
    · rename_i leafCert hparse
      split at h
      · rename_i k
        split at h
        · rename_i hpub
          cases leafDER with
          | valid c =>
            simp only [parseCertificateDER] at hparse
            cases hparse
            exact ⟨leafCert, rest, k, hchain, rfl, hpub, by cases h; rfl⟩
          | invalid => simp [parseCertificateDER] at hparse
        · exact absurd h (by simp)
      · exact absurd h (by simp)

theorem caChainPEM_ok_head {data : List (String × SecretVal)} {chain : List PEMObj}
    (h : caChainPEM data = .ok chain) :
    ∃ p rest, dataLookup data "certificate" = some (SecretVal.str p) ∧ chain = p :: rest := by
  unfold caChainPEM at h
  split at h
  · rename_i certPEM hcert
    split at h
    · rename_i entries hchain
      rcases appendChainEntries_ok_extends h with ⟨suffix, hs⟩
      exact ⟨certPEM, suffix, hcert, by simpa using hs⟩
    · exact absurd h (by simp)
    · split at h
      · rename_i ca hca
        cases h
        exact ⟨certPEM, [ca], hcert, rfl⟩
      · exact absurd h (by simp)
      · cases h
        exact ⟨certPEM, [], hcert, rfl⟩
  · exact absurd h (by simp)
  · exact absurd h (by simp)

theorem assembleResult_ok_inv {secret : Secret} {keyPEM : PEMObj} {t : TLSCertificate}
    (h : assembleResult secret keyPEM = .ok t) :
    ∃ chain t0, caChainPEM secret.data = .ok chain ∧ X509KeyPair chain keyPEM = .ok t0 ∧
      t = { t0 with leaf := t0.certificate.head?.bind parseCertificateDER } := by
  unfold assembleResult at h
  split at h
  · exact absurd h (by simp)
  · rename_i chain hchain
    split at h
    · exact absurd h (by simp)
    · rename_i t0 ht0
      cases h
      exact ⟨chain, t0, hchain, ht0, rfl⟩

theorem afterSign_ok_inv {s : Option Secret} {e : Option GoErr} {keyPEM : PEMObj}
    {t : TLSCertificate} (h : afterSign s e keyPEM = .ok t) :
    e = none ∧ ∃ sec, s = some sec ∧ assembleResult sec keyPEM = .ok t := by
  cases e with
  | some e2 => exact absurd h (by simp [afterSign])
  | none =>
    cases s with
    | none => exact absurd h (by simp [afterSign])
    | some sec =>
      simp only [afterSign] at h
      exact ⟨rfl, sec, rfl, h⟩

theorem Issue_ok_inv {v : Issuer} {cn : String} {inp : IssueInputs} {t : TLSCertificate}
    (h : (Issue v cn inp).result = .ok t) :
    ∃ csrS keyPEM sec, inp.csrOutcome = CSROutcome.ok csrS keyPEM ∧
      (Issue v cn inp).secretUsed = some sec ∧ assembleResult sec keyPEM = .ok t := by
  rcases hpro : prologue v inp.newClientErr with ⟨v1, ce⟩
  cases ce with
  | some e => simp [Issue, hpro] at h
  | none =>
    cases hcsr : inp.csrOutcome with
    | fail e => simp [Issue, hpro, hcsr] at h
    | ok csrS keyPEM =>
      rcases hs : (signCSR v1 (buildCsrOpts v1 cn csrS) inp.sign).2 with ⟨s, e⟩ | ⟨m⟩
      · simp only [Issue, hpro, hcsr, hs] at h ⊢
        rcases afterSign_ok_inv h with ⟨he, sec, hsec, hass⟩
        subst he
        subst hsec
        exact ⟨csrS, keyPEM, sec, rfl, rfl, hass⟩
      · simp [Issue, hpro, hcsr, hs] at h

theorem Issue_issuer_eq (v : Issuer) (cn : String) (inp : IssueInputs) :
    (Issue v cn inp).issuer = (prologue v inp.newClientErr).1 := by
  rcases hpro : prologue v inp.newClientErr with ⟨v1, ce⟩
  cases ce with
  | some e => simp [Issue, hpro]
  | none =>
    cases hcsr : inp.csrOutcome with
    | fail e => simp [Issue, hpro, hcsr]
    | ok csrS keyPEM =>
      rcases hs : (signCSR v1 (buildCsrOpts v1 cn csrS) inp.sign).2 with ⟨s, e⟩ | ⟨m⟩
      · simp [Issue, hpro, hcsr, hs]
      · simp [Issue, hpro, hcsr, hs]

theorem awsIssue_ok_inv {a : AWSIssuer} {cn : String} {inp : AWSInputs} {t : TLSCertificate}
    (h : awsIssue a cn inp = .ok t) :
    ∃ csrS keyPEM leafPEM chainPEMs t0, inp.csrOutcome = CSROutcome.ok csrS keyPEM ∧
      inp.fetch = .ok (leafPEM, chainPEMs) ∧
      X509KeyPair (leafPEM :: chainPEMs) keyPEM = .ok t0 ∧
      t = { t0 with leaf := t0.certificate.head?.bind parseCertificateDER } := by
  cases hcsr : inp.csrOutcome with
  | fail e => simp [awsIssue, hcsr] at h
  | ok csrS keyPEM =>
    cases hsub : inp.submit with
    | error e => simp [awsIssue, hcsr, hsub] at h
    | ok handle =>
      cases hwait : inp.wait with
      | cancelled => simp [awsIssue, hcsr, hsub, hwait] at h
      | denied => simp [awsIssue, hcsr, hsub, hwait] at h
      | issued =>
        rcases hfetch : inp.fetch with e | ⟨leafPEM, chainPEMs⟩
        · simp [awsIssue, hcsr, hsub, hwait, hfetch] at h
        · cases hx : X509KeyPair (leafPEM :: chainPEMs) keyPEM with
          | error e => simp [awsIssue, hcsr, hsub, hwait, hfetch, hx] at h
          | ok t0 =>
            simp only [awsIssue, hcsr, hsub, hwait, hfetch, hx] at h
            injection h with h2
            subst h2
            exact ⟨csrS, keyPEM, leafPEM, chainPEMs, t0, rfl, rfl, hx, rfl⟩

/-- Claim C1 (bug evidence): on a 404 sign response whose body is empty,
so that parsing yields end of input, signCSR returns nil secret and nil
error as the spec intends, but Issue then dereferences the nil secret and
panics instead of returning a nil certificate and a nil error. -/
theorem c1_issue_panics_on_empty_404 :
    (signCSR vaultEx (buildCsrOpts vaultEx "somename" "csr")
        (sign404 .eof (some "unexpected status 404"))).2
      = SignResult.ret none none
    ∧ (Issue vaultEx "somename" (mkVaultInputs "csr" (.key keyA)
        (sign404 .eof (some "unexpected status 404")))).result
      = IssueResult.goPanic "runtime error invalid memory address or nil pointer dereference" :=
  ⟨rfl, rfl⟩

/-- Claim C7: whenever Issue reaches the sign call, the signing request it
submits carries exactly the encoded CSR, the common name, exclude CN from
SANs set true, response format pem, the configured custom OID SANs and the
configured TTL, on the PUT sign endpoint of the configured mount and
role. -/
theorem c7_signing_request_fields :
    ∀ (v : Issuer) (cn : String) (inp : IssueInputs) (csrS : String) (keyPEM : PEMObj),
      inp.csrOutcome = CSROutcome.ok csrS keyPEM →
      (v.cli ≠ none ∨ inp.newClientErr = none) →
      (Issue v cn inp).request =
        some { method := "PUT"
               path := "/v1/" ++ pkiMountName v ++ "/sign/" ++ v.Role
               body := { CSR := csrS, CommonName := cn, ExcludeCNFromSANS := true,
                         Format := "pem", OtherSans := v.OtherSubjectAlternativeNames,
                         TimeToLive := ttl v.TimeToLive } } := by
  intro v cn inp csrS keyPEM hcsr hconn
  have hpro : ∃ v1, prologue v inp.newClientErr = (v1, none)
      ∧ v1.Mount = v.Mount ∧ v1.Role = v.Role
      ∧ v1.OtherSubjectAlternativeNames = v.OtherSubjectAlternativeNames
      ∧ v1.TimeToLive = v.TimeToLive := by
    cases hcli : v.cli with
    | some c => exact ⟨v, by simp [prologue, hcli], rfl, rfl, rfl, rfl⟩
    | none =>
      rcases hconn with h | h
      · exact absurd hcli h
      · refine ⟨{ v with cli := some { address := v.URL, token := v.Token,
                                       tlsClientConfig := v.TLSConfig } },
                ?_, rfl, rfl, rfl, rfl⟩
        simp [prologue, hcli, connect, h]
  rcases hpro with ⟨v1, hpro, hmount, hrole, hsans, httl⟩
  have hreq : (Issue v cn inp).request
      = some (signCSR v1 (buildCsrOpts v1 cn csrS) inp.sign).1 := by
    rcases hs : (signCSR v1 (buildCsrOpts v1 cn csrS) inp.sign).2 with ⟨s, e⟩ | ⟨m⟩ <;>
      simp [Issue, hpro, hcsr, hs]
  rw [hreq]
  cases hj : inp.sign.setJSONBodyErr <;>
    simp [signCSR, hj, buildCsrOpts, ttl, pkiMountName, hmount, hrole, hsans, httl]

/-- Claim C7 witness at a concrete issuer and inputs. -/
theorem c7_witness :
    (Issue vaultEx "somename" (mkVaultInputs "csr" (.key keyA) (mkOkSign [] []))).request =
      some { method := "PUT"
             path := "/v1/" ++ pkiMountName vaultEx ++ "/sign/" ++ vaultEx.Role
             body := { CSR := "csr", CommonName := "somename", ExcludeCNFromSANS := true,
                       Format := "pem", OtherSans := vaultEx.OtherSubjectAlternativeNames,
                       TimeToLive := ttl vaultEx.TimeToLive } } :=
  c7_signing_request_fields vaultEx "somename"
    (mkVaultInputs "csr" (.key keyA) (mkOkSign [] [])) "csr" (.key keyA) rfl
    (Or.inl (by decide))

/-- Claim C8: the sign endpoint path uses the default mount pki when Mount
is unset and the configured Mount otherwise, and the request signCSR
builds carries exactly that path. -/
theorem c8_mount_default :
    ∀ (v : Issuer) (opts : csrOpts) (o : SignCallOutcome),
      (signCSR v opts o).1.path = "/v1/" ++ pkiMountName v ++ "/sign/" ++ v.Role
      ∧ (v.Mount = "" → pkiMountName v = "pki")
      ∧ (v.Mount ≠ "" → pkiMountName v = v.Mount) := by
  intro v opts o
  refine ⟨?_, ?_, ?_⟩
  · cases h : o.setJSONBodyErr <;> simp [signCSR, h]
  · intro h; simp [pkiMountName, h]
  · intro h; simp [pkiMountName, h]

/-- Claim C8 witness: the default and the overridden mount on concrete
issuers. -/
theorem c8_witness :
    (signCSR vaultEx (buildCsrOpts vaultEx "somename" "csr") (mkOkSign [] [])).1.path
      = "/v1/" ++ pkiMountName vaultEx ++ "/sign/" ++ vaultEx.Role
    ∧ pkiMountName vaultEx = "pki"
    ∧ pkiMountName { vaultEx with Mount := "custom" } = "custom" :=
  ⟨(c8_mount_default vaultEx (buildCsrOpts vaultEx "somename" "csr") (mkOkSign [] [])).1,
   (c8_mount_default vaultEx (buildCsrOpts vaultEx "somename" "csr") (mkOkSign [] [])).2.1 rfl,
   (c8_mount_default { vaultEx with Mount := "custom" }
     (buildCsrOpts vaultEx "somename" "csr") (mkOkSign [] [])).2.2 (by decide)⟩

/-- Claim C10: Issue leaves every configuration field of the issuer
unchanged, and an issuer whose session is already established is returned
entirely unchanged, so a non nil client is never replaced. -/
theorem c10_frame :
    ∀ (v : Issuer) (cn : String) (inp : IssueInputs),
      ((Issue v cn inp).issuer.URL = v.URL
      ∧ (Issue v cn inp).issuer.Token = v.Token
      ∧ (Issue v cn inp).issuer.Mount = v.Mount
      ∧ (Issue v cn inp).issuer.Role = v.Role
      ∧ (Issue v cn inp).issuer.TLSConfig = v.TLSConfig
      ∧ (Issue v cn inp).issuer.TimeToLive = v.TimeToLive
      ∧ (Issue v cn inp).issuer.OtherSubjectAlternativeNames = v.OtherSubjectAlternativeNames)
      ∧ (∀ c, v.cli = some c → (Issue v cn inp).issuer = v) := by
  intro v cn inp
  simp only [Issue_issuer_eq]
  cases hcli : v.cli with
  | some c =>
    exact ⟨by simp [prologue, hcli], fun c2 hc2 => by simp [prologue, hcli]⟩
  | none =>
    constructor
    · cases hnce : inp.newClientErr <;> simp [prologue, hcli, connect, hnce]
    · intro c2 hc2
      exact Option.noConfusion hc2

/-- Claim C10 witness: an issuer with an established session is unchanged
by Issue. -/
theorem c10_witness :
    (Issue vaultEx "somename" (mkVaultInputs "csr" (.key keyA) (mkOkSign [] []))).issuer
      = vaultEx :=
  (c10_frame vaultEx "somename" (mkVaultInputs "csr" (.key keyA) (mkOkSign [] []))).2
    clientA rfl

theorem certBlocks_nil : certBlocks [] = [] := rfl

theorem appendChainEntries_cert_map (ds : List DERBlock) :
    ∀ acc, appendChainEntries acc (ds.map fun d => SecretVal.str (PEMObj.cert d))
      = ChainResult.ok (acc ++ ds.map PEMObj.cert) := by
  induction ds with
  | nil => intro acc; simp [appendChainEntries]
  | cons d rest ih =>
    intro acc
    simp only [List.map_cons, appendChainEntries, ih]
    simp

/-- Claim C2: chain resolution of the synchronous issuer. With a ca chain
sequence present the returned chain is the leaf followed by the entries in
order, even when issuing ca is also present; otherwise with an issuing ca
field the chain is leaf then issuing ca; otherwise the chain is the leaf
alone. -/
theorem c2_chain_resolution :
    ∀ (v : Issuer) (c0 : Client) (cn csrS : String) (L : CertData) (k : KeyData)
      (ds : List DERBlock) (dI : DERBlock) (ica : SecretVal) (ws : List String),
      v.cli = some c0 → k.pub = L.pub →
      ((Issue v cn (mkVaultInputs csrS (.key k) (mkOkSign ws
            [certEntry (.valid L), caChainEntry ds, ("issuing_ca", ica)]))).result
          = .ok { certificate := DERBlock.valid L :: ds, privateKey := k, leaf := some L }
      ∧ (Issue v cn (mkVaultInputs csrS (.key k) (mkOkSign ws
            [certEntry (.valid L), ("issuing_ca", SecretVal.str (PEMObj.cert dI))]))).result
          = .ok { certificate := [DERBlock.valid L, dI], privateKey := k, leaf := some L }
      ∧ (Issue v cn (mkVaultInputs csrS (.key k) (mkOkSign ws [certEntry (.valid L)]))).result
          = .ok { certificate := [DERBlock.valid L], privateKey := k, leaf := some L }) := by
  intro v c0 cn csrS L k ds dI ica ws hcli hk
  refine ⟨?_, ?_, ?_⟩ <;>
    simp [Issue, prologue, hcli, mkVaultInputs, mkOkSign, signCSR, signCSRTail,
          secretHasContent, afterSign, assembleResult, caChainPEM, dataLookup,
          certEntry, caChainEntry, appendChainEntries_cert_map, appendChainEntries,
          X509KeyPair, certBlocks_cons_cert, certBlocks_map_cert, certBlocks_nil,
          parseCertificateDER, hk, buildCsrOpts]

/-- Claim C2 witness at concrete certificates. -/
theorem c2_witness :
    (Issue vaultEx "somename" (mkVaultInputs "csr" (.key keyA) (mkOkSign []
        [certEntry (.valid certA), caChainEntry [DERBlock.valid certB],
         ("issuing_ca", SecretVal.other)]))).result
      = .ok { certificate := [DERBlock.valid certA, DERBlock.valid certB],
              privateKey := keyA, leaf := some certA } :=
  (c2_chain_resolution vaultEx clientA "somename" "csr" certA keyA
    [DERBlock.valid certB] DERBlock.invalid SecretVal.other [] rfl rfl).1

/-- A 404 response secret carrying one warning. -/
def secret404Ex : Secret := { warnings := ["one warning"], data := [] }

/-- Claim C3 counterexample: on a 404 whose body parses to a secret with a
warning, signCSR does not ignore the not found status: it returns the
parsed secret together with the original status error of the sign call,
and Issue therefore fails with that error instead of treating the parsed
secret as a success. -/
theorem c3_counterexample :
    (signCSR vaultEx (buildCsrOpts vaultEx "somename" "csr")
        (sign404 (.ok (some secret404Ex)) (some "unexpected status 404"))).2
      = SignResult.ret (some secret404Ex) (some "unexpected status 404")
    ∧ ((signCSR vaultEx (buildCsrOpts vaultEx "somename" "csr")
        (sign404 (.ok (some secret404Ex)) (some "unexpected status 404"))).2
      ≠ SignResult.ret (some secret404Ex) none)
    ∧ (Issue vaultEx "somename" (mkVaultInputs "csr" (.key keyA)
        (sign404 (.ok (some secret404Ex)) (some "unexpected status 404")))).result
      = IssueResult.err "unexpected status 404" := by
  refine ⟨rfl, ?_, rfl⟩
  intro h
  have h2 : SignResult.ret (some secret404Ex) (some "unexpected status 404")
      = SignResult.ret (some secret404Ex) none := h
  injection h2 with ha hb
  exact Option.noConfusion hb

/-- Claim C3 (amended): on a 404 response with a parseable body, a parsed
secret carrying warnings or data is returned together with the original
error of the sign call, not as a clean success; a body that fails to parse
propagates the original error rather than the parse error; and a parsed
body without warnings or data also propagates the original error when one
is present. -/
theorem c3_amended :
    ∀ (v : Issuer) (opts : csrOpts) (o : SignCallOutcome) (r : Response),
      o.setJSONBodyErr = none → o.resp = some r → r.statusCode = 404 →
      ((∀ s, r.body.parse = .ok s → secretHasContent s = true →
          (signCSR v opts o).2 = SignResult.ret s o.err)
      ∧ (∀ pe, r.body.parse = .fail pe →
          (signCSR v opts o).2 = SignResult.ret none o.err)
      ∧ (∀ s e, r.body.parse = .ok s → secretHasContent s = false → o.err = some e →
          (signCSR v opts o).2 = SignResult.ret none (some e))) := by
  intro v opts o r hjson hresp hstatus
  refine ⟨?_, ?_, ?_⟩
  · intro s hparse hcontent
    simp [signCSR, hjson, hresp, hstatus, hparse, hcontent]
  · intro pe hparse
    simp [signCSR, hjson, hresp, hstatus, hparse]
  · intro s e hparse hcontent herr
    simp [signCSR, hjson, hresp, hstatus, hparse, hcontent, signCSRTail, herr]

/-- Claim C3 amended witness: the warning-carrying 404 secret comes back
with the original error attached. -/
theorem c3_amended_witness :
    (signCSR vaultEx (buildCsrOpts vaultEx "somename" "nextcsr")
        (sign404 (.ok (some secret404Ex)) (some "status 404 from sign"))).2
      = SignResult.ret (some secret404Ex) (some "status 404 from sign") :=
  (c3_amended vaultEx (buildCsrOpts vaultEx "somename" "nextcsr")
    (sign404 (.ok (some secret404Ex)) (some "status 404 from sign"))
    { statusCode := 404, body := { parse := .ok (some secret404Ex) } }
    rfl rfl rfl).1 (some secret404Ex) rfl rfl

/-- Sample asynchronous inputs: issued certificate certB with a chain
entry certA, key pairing with certB. -/
def awsInpEx : AWSInputs :=
  { csrOutcome := .ok "csr" (.key keyB), submit := .ok "anotherARN",
    wait := .issued,
    fetch := .ok (PEMObj.cert (DERBlock.valid certB), [PEMObj.cert (DERBlock.valid certA)]) }

/-- A sample response secret whose leaf is certA. -/
def secEx : Secret := { warnings := [], data := [certEntry (.valid certA)] }

/-- Claim C4: every successful Issue on either backend returns a private
key pairing with the public key of the leaf at the head of the chain, and
a pairing mismatch at assembly yields the mismatch error rather than a
certificate. -/
theorem c4_pairing :
    (∀ (v : Issuer) (cn : String) (inp : IssueInputs) (t : TLSCertificate),
        (Issue v cn inp).result = .ok t → keyMatchesLeaf t = true)
    ∧ (∀ (a : AWSIssuer) (cn : String) (inp : AWSInputs) (t : TLSCertificate),
        awsIssue a cn inp = .ok t → keyMatchesLeaf t = true)
    ∧ (∀ (secret : Secret) (k : KeyData) (chain : List PEMObj) (c : CertData)
         (rest : List DERBlock),
        caChainPEM secret.data = ChainResult.ok chain →
        certBlocks chain = DERBlock.valid c :: rest →
        k.pub ≠ c.pub →
        assembleResult secret (PEMObj.key k)
          = .err "tls private key does not match public key") := by
  refine ⟨?_, ?_, ?_⟩
  · intro v cn inp t h
    rcases Issue_ok_inv h with ⟨csrS, keyPEM, sec, hcsr, hsec, hass⟩
    rcases assembleResult_ok_inv hass with ⟨chain, t0, hchain, hx, ht⟩
    rcases X509KeyPair_ok_inv hx with ⟨c, rest, k, hcb, hkey, hpub, ht0⟩
    subst ht ht0
    simp [keyMatchesLeaf, hpub]
  · intro a cn inp t h
    rcases awsIssue_ok_inv h with ⟨csrS, keyPEM, leafPEM, chainPEMs, t0, hcsr, hfetch, hx, ht⟩
    rcases X509KeyPair_ok_inv hx with ⟨c, rest, k, hcb, hkey, hpub, ht0⟩
    subst ht ht0
    simp [keyMatchesLeaf, hpub]
  · intro secret k chain c rest hchain hcb hne
    simp [assembleResult, hchain, X509KeyPair, hcb, parseCertificateDER, hne]

/-- Claim C4 witness: pairing holds on concrete successful runs of both
backends, and a concrete mismatch is rejected. -/
theorem c4_witness :
    keyMatchesLeaf { certificate := [DERBlock.valid certA], privateKey := keyA,
                     leaf := some certA } = true
    ∧ keyMatchesLeaf { certificate := [DERBlock.valid certB, DERBlock.valid certA],
                       privateKey := keyB, leaf := some certB } = true
    ∧ assembleResult secEx (PEMObj.key keyB)
        = .err "tls private key does not match public key" :=
  ⟨c4_pairing.1 vaultEx "somename"
      (mkVaultInputs "csr" (.key keyA) (mkOkSign [] [certEntry (.valid certA)])) _ rfl,
   c4_pairing.2.1 awsEx "somename" awsInpEx _ rfl,
   c4_pairing.2.2 secEx keyB [PEMObj.cert (DERBlock.valid certA)] certA [] rfl rfl
     (by decide)⟩

/-- Claim C5: for every successful Issue the first entry of the returned
chain is the leaf certificate of the CA response, for both backends. -/
theorem c5_chain_head :
    (∀ (v : Issuer) (cn : String) (inp : IssueInputs) (t : TLSCertificate)
       (sec : Secret) (dL : DERBlock),
        (Issue v cn inp).result = .ok t →
        (Issue v cn inp).secretUsed = some sec →
        dataLookup sec.data "certificate" = some (SecretVal.str (PEMObj.cert dL)) →
        t.certificate.head? = some dL)
    ∧ (∀ (a : AWSIssuer) (cn : String) (inp : AWSInputs) (t : TLSCertificate)
       (dL : DERBlock) (chainPEMs : List PEMObj),
        inp.fetch = .ok (PEMObj.cert dL, chainPEMs) →
        awsIssue a cn inp = .ok t →
        t.certificate.head? = some dL) := by
  constructor
  · intro v cn inp t sec dL h hsec hlook
    rcases Issue_ok_inv h with ⟨csrS, keyPEM, sec0, hcsr, hsec0, hass⟩
    rw [hsec] at hsec0
    injection hsec0 with hsec1
    subst hsec1
    rcases assembleResult_ok_inv hass with ⟨chain, t0, hchain, hx, ht⟩
    rcases caChainPEM_ok_head hchain with ⟨p, rest, hlook2, hchain2⟩
    rw [hlook] at hlook2
    injection hlook2 with hp
    injection hp with hp2
    subst hp2
    subst hchain2
    rcases X509KeyPair_ok_inv hx with ⟨c, rest2, k, hcb, hkey, hpub, ht0⟩
    subst ht ht0
    rw [certBlocks_cons_cert] at hcb
    simp only [List.cons.injEq] at hcb
    simp [← hcb.1]
  · intro a cn inp t dL chainPEMs hfetch h
    rcases awsIssue_ok_inv h with ⟨csrS, keyPEM, leafPEM, chainPEMs0, t0, hcsr, hfetch0, hx, ht⟩
    rw [hfetch] at hfetch0
    injection hfetch0 with hpr
    rw [Prod.mk.injEq] at hpr
    rcases hpr with ⟨hleaf, hchain⟩
    subst hleaf
    subst hchain
    rcases X509KeyPair_ok_inv hx with ⟨c, rest2, k, hcb, hkey, hpub, ht0⟩
    subst ht ht0
    rw [certBlocks_cons_cert] at hcb
    simp only [List.cons.injEq] at hcb
    simp [← hcb.1]

/-- Claim C5 witness on concrete runs of both backends. -/
theorem c5_witness :
    ({ certificate := [DERBlock.valid certA], privateKey := keyA,
       leaf := some certA } : TLSCertificate).certificate.head?
      = some (DERBlock.valid certA)
    ∧ ({ certificate := [DERBlock.valid certB, DERBlock.valid certA], privateKey := keyB,
         leaf := some certB } : TLSCertificate).certificate.head?
      = some (DERBlock.valid certB) :=
  ⟨c5_chain_head.1 vaultEx "somename"
      (mkVaultInputs "csr" (.key keyA) (mkOkSign [] [certEntry (.valid certA)]))
      { certificate := [DERBlock.valid certA], privateKey := keyA, leaf := some certA }
      secEx (DERBlock.valid certA) rfl rfl rfl,
   c5_chain_head.2 awsEx "somename" awsInpEx
      { certificate := [DERBlock.valid certB, DERBlock.valid certA], privateKey := keyB,
        leaf := some certB }
      (DERBlock.valid certB) [PEMObj.cert (DERBlock.valid certA)] rfl rfl⟩

/-- Claim C6: every successful Issue returns a certificate whose Leaf
field is populated and equals the parse of the first chain entry, for both
backends. -/
theorem c6_leaf_attached :
    (∀ (v : Issuer) (cn : String) (inp : IssueInputs) (t : TLSCertificate),
        (Issue v cn inp).result = .ok t →
        t.leaf.isSome = true ∧ t.leaf = t.certificate.head?.bind parseCertificateDER)
    ∧ (∀ (a : AWSIssuer) (cn : String) (inp : AWSInputs) (t : TLSCertificate),
        awsIssue a cn inp = .ok t →
        t.leaf.isSome = true ∧ t.leaf = t.certificate.head?.bind parseCertificateDER) := by
  constructor
  · intro v cn inp t h
    rcases Issue_ok_inv h with ⟨csrS, keyPEM, sec, hcsr, hsec, hass⟩
    rcases assembleResult_ok_inv hass with ⟨chain, t0, hchain, hx, ht⟩
    rcases X509KeyPair_ok_inv hx with ⟨c, rest, k, hcb, hkey, hpub, ht0⟩
    subst ht ht0
    simp [parseCertificateDER]
  · intro a cn inp t h
    rcases awsIssue_ok_inv h with ⟨csrS, keyPEM, leafPEM, chainPEMs, t0, hcsr, hfetch, hx, ht⟩
    rcases X509KeyPair_ok_inv hx with ⟨c, rest, k, hcb, hkey, hpub, ht0⟩
    subst ht ht0
    simp [parseCertificateDER]

/-- Claim C6 witness on concrete runs of both backends. -/
theorem c6_witness :
    (({ certificate := [DERBlock.valid certA], privateKey := keyA,
        leaf := some certA } : TLSCertificate).leaf.isSome = true
      ∧ ({ certificate := [DERBlock.valid certA], privateKey := keyA,
           leaf := some certA } : TLSCertificate).leaf
        = ({ certificate := [DERBlock.valid certA], privateKey := keyA,
             leaf := some certA } : TLSCertificate).certificate.head?.bind parseCertificateDER)
    ∧ (({ certificate := [DERBlock.valid certB, DERBlock.valid certA], privateKey := keyB,
          leaf := some certB } : TLSCertificate).leaf.isSome = true
      ∧ ({ certificate := [DERBlock.valid certB, DERBlock.valid certA], privateKey := keyB,
           leaf := some certB } : TLSCertificate).leaf
        = ({ certificate := [DERBlock.valid certB, DERBlock.valid certA], privateKey := keyB,
             leaf := some certB } : TLSCertificate).certificate.head?.bind parseCertificateDER) :=
  ⟨c6_leaf_attached.1 vaultEx "somename"
      (mkVaultInputs "csr" (.key keyA) (mkOkSign [] [certEntry (.valid certA)])) _ rfl,
   c6_leaf_attached.2 awsEx "somename" awsInpEx _ rfl⟩

/-- States in which the session is established and no thread is past the
nil check with connect still pending. -/
def safeState (s : RaceState) : Bool :=
  s.cli.isSome && s.pc1 != TPC.connecting && s.pc2 != TPC.connecting

theorem stepRace_safe (s : RaceState) (c : Client) (t : Bool)
    (h : safeState s = true) :
    safeState (stepRace s c t) = true ∧ (stepRace s c t).inits = s.inits := by
  rcases s with ⟨cli, pc1, pc2, inits⟩
  rcases cli with _ | cc
  · simp [safeState] at h
  · cases t <;> cases pc1 <;> cases pc2 <;>
      simp_all [safeState, stepRace, stepThread]

theorem runRace_safe :
    ∀ (sched : List Bool) (s : RaceState) (c : Client),
      safeState s = true → (runRace s c sched).inits = s.inits := by
  intro sched
  induction sched with
  | nil => intro s c h; rfl
  | cons t ts ih =>
    intro s c h
    have h2 := stepRace_safe s c t h
    simp only [runRace]
    rw [ih (stepRace s c t) c h2.1, h2.2]

/-- Claim C9 counterexample: with no pre-established session, the plain
nil check guard admits a schedule of two concurrent first calls in which
both threads pass the check and both run connect, so initialization is not
performed at most once. -/
theorem c9_counterexample :
    ¬ (∀ sched : List Bool, (runRace (raceStart none) clientA sched).inits ≤ 1) :=
  fun h => absurd (h [true, false, true, false]) (by decide)

/-- Claim C9 (amended): the lazy session establishment is guarded only by
a nil check, so two concurrent first calls can each run connect (duplicate
initialization is reachable), while an issuer whose session is
pre-established never runs connect under any schedule. -/
theorem c9_amended :
    (∀ (c0 c : Client) (sched : List Bool),
        (runRace (raceStart (some c0)) c sched).inits = 0)
    ∧ (runRace (raceStart none) clientA [true, false, true, false]).inits = 2 := by
  constructor
  · intro c0 c sched
    exact runRace_safe sched (raceStart (some c0)) c rfl
  · decide

end Certify
